import Mathlib

/-!
Verification development for the shift-light telemetry gauge
(src/main.py).  The Python source is shallowly embedded: packets are
lists of byte values, struct formats are fixed-width codecs, Python
int truncation is modelled on rationals, dictionaries are
insertion-ordered association lists, and every Python exception kind
that the modelled code can raise is an explicit error value.
-/

namespace ShiftLight

/-- Python int(x) truncation toward zero, on exact rationals. -/
def pyInt (q : ℚ) : ℤ := if 0 ≤ q then Rat.floor q else Rat.ceil q

/-- A struct format string: a fixed byte width together with the
numeric interpretation of a width-sized slice, as an exact rational. -/
structure Format where
  width : ℕ
  interp : List ℕ → ℚ

/-- One field layout entry of a schema: format, offset, multiplier
(main.py schema fields, e.g. fields.gear / fields.rpm / fields.max_rpm). -/
structure FieldSpec where
  format : Format
  offset : ℕ
  multiplier : ℚ

/-- The fields dictionary of one game schema.  The gear entry also
carries its gear-to-glyph map (main.py: gear_info, rpm_info,
optional max_rpm_info). -/
structure Fields where
  gear : FieldSpec
  gearMap : List (String × String)
  rpm : FieldSpec
  max_rpm : Option FieldSpec

/-- One game schema record (an entry of schemas.json "games"). -/
structure Schema where
  name : Option String
  fields : Fields

/-- The Python exception kinds the modelled code can raise. -/
inductive PyErr where
  | structError   -- struct.error from unpack_from on a short buffer
  | valueError    -- tuple destructuring arity mismatch
  | keyError      -- dictionary lookup failure
  | zeroDiv       -- ZeroDivisionError
deriving DecidableEq

deriving instance DecidableEq for Except

/-- struct.unpack_from(format, data, offset): succeeds iff the buffer
holds at least offset + width bytes, otherwise raises struct.error. -/
def unpack_from (fmt : Format) (data : List ℕ) (offset : ℕ) : Except PyErr ℚ :=
  if offset + fmt.width ≤ data.length then
    .ok (fmt.interp ((data.drop offset).take fmt.width))
  else
    .error .structError

/-- int(struct.unpack_from(fmt, data, off)[0] * multiplier): read the
raw value, multiply, then truncate (main.py lines 198-199). -/
def decodeField (f : FieldSpec) (data : List ℕ) : Except PyErr ℤ :=
  match unpack_from f.format data f.offset with
  | .error e => .error e
  | .ok raw => .ok (pyInt (raw * f.multiplier))

/-- int(struct.unpack_from(fmt, data, off)[0]): read and truncate with
no multiplier, exactly as main.py line 203 does for max_rpm. -/
def decodeFieldRaw (f : FieldSpec) (data : List ℕ) : Except PyErr ℤ :=
  match unpack_from f.format data f.offset with
  | .error e => .error e
  | .ok raw => .ok (pyInt raw)

/-- The body of unpack_game_data once the schema is found: decode gear,
rpm, and the optional max_rpm field, in source order; the first raised
decode error propagates. -/
def unpackSchema (s : Schema) (data : List ℕ) : Except PyErr (ℤ × ℤ × Option ℤ) :=
  match decodeField s.fields.gear data with
  | .error e => .error e
  | .ok gear =>
    match decodeField s.fields.rpm data with
    | .error e => .error e
    | .ok rpm =>
      match s.fields.max_rpm with
      | none => .ok (gear, rpm, none)
      | some mi =>
        match decodeFieldRaw mi data with
        | .error e => .error e
        | .ok m => .ok (gear, rpm, some m)

/-- A Python tuple returned by unpack_game_data: either the 2-tuple
(None, None) or the 3-tuple (gear, rpm, max_rpm). -/
inductive UnpackResult where
  | none2
  | triple (gear rpm : ℤ) (max_rpm : Option ℤ)
deriving DecidableEq

/-- Number of components of the returned tuple. -/
def UnpackResult.arity : UnpackResult → ℕ
  | .none2 => 2
  | .triple _ _ _ => 3

/-- The instance state of the Gauge class (main.py lines 146-154). -/
structure Gauge where
  max_rpm : ℤ
  level : ℚ
  flashed : Bool
  flash_cycles : ℕ
  increasing : Bool
  in_idle_mode : Bool
  detected_game : Option String
  game_schemas : List (String × Schema)
  gear_map : List (String × String)

/-- Gauge.unpack_game_data (main.py lines 188-205): for an unknown
game id return (None, None); otherwise decode the three fields and
return the 3-tuple. -/
def unpack_game_data (g : Gauge) (gameId : String) (data : List ℕ) :
    Except PyErr UnpackResult :=
  match List.lookup gameId g.game_schemas with
  | none => .ok .none2
  | some s =>
      match unpackSchema s data with
      | .error e => .error e
      | .ok (gear, rpm, m) => .ok (.triple gear rpm m)

/-- Python destructuring "gear, rpm = t": succeeds only on a 2-tuple,
raising ValueError on the 3-tuple. -/
def destructure2 : UnpackResult → Except PyErr (Option ℤ × Option ℤ)
  | .none2 => .ok (none, none)
  | .triple _ _ _ => .error .valueError

/-- Python truthiness of an optional integer (None and 0 are falsy). -/
def truthyInt (m : Option ℤ) : Bool :=
  match m with
  | none => false
  | some v => v != 0

/-- Python truthiness of an optional string (None and "" are falsy). -/
def truthyStr (s : Option String) : Bool :=
  match s with
  | none => false
  | some v => v.length != 0

/-- The plausibility test of detect_game (main.py line 172):
gear in [-1..10] and 0 < rpm < 20000. -/
def plausibleB (gear rpm : ℤ) : Bool :=
  decide (gear ∈ ([-1, 0, 1, 2, 3, 4, 5, 6, 7, 8, 9, 10] : List ℤ)) &&
    decide (0 < rpm) && decide (rpm < 20000)

/-- Whether one schema trial of detect_game accepts the packet:
the decode must succeed and pass the plausibility test. -/
def acceptsB (s : Schema) (data : List ℕ) : Bool :=
  match unpackSchema s data with
  | .error _ => false
  | .ok (gear, rpm, _) => plausibleB gear rpm

/-- The detection loop of detect_game (main.py lines 167-186),
instrumented with the number of schema decode trials performed.  A
failing or implausible trial is skipped (the per-schema except); the
first accepted schema locks the gauge, stores its gear map, and
applies the decoded max_rpm only when it is truthy. -/
def detectLoopT (g : Gauge) (data : List ℕ) :
    List (String × Schema) → Gauge × Option String × ℕ
  | [] => (g, none, 0)
  | (gameId, s) :: rest =>
      match unpackSchema s data with
      | .error _ =>
          let x := detectLoopT g data rest
          (x.1, x.2.1, x.2.2 + 1)
      | .ok (gear, rpm, m) =>
          if plausibleB gear rpm then
            ({ g with
                detected_game := some gameId,
                gear_map := s.fields.gearMap,
                max_rpm := if truthyInt m then m.getD g.max_rpm else g.max_rpm },
             some gameId, 1)
          else
            let x := detectLoopT g data rest
            (x.1, x.2.1, x.2.2 + 1)

/-- Gauge.detect_game with its trial counter: a truthy detected_game
short-circuits with zero decode trials (main.py lines 163-165). -/
def detect_gameT (g : Gauge) (data : List ℕ) : Gauge × Option String × ℕ :=
  if truthyStr g.detected_game then (g, g.detected_game, 0)
  else detectLoopT g data g.game_schemas

/-- Gauge.detect_game (main.py lines 161-186): the observable result. -/
def detect_game (g : Gauge) (data : List ℕ) : Gauge × Option String :=
  ((detect_gameT g data).1, (detect_gameT g data).2.1)

/-- The field specs a schema actually reads from a packet: gear, rpm,
and max_rpm when declared. -/
def referencedFields (s : Schema) : List FieldSpec :=
  [s.fields.gear, s.fields.rpm] ++
    (match s.fields.max_rpm with
     | some f => [f]
     | none => [])

/-- The configuration options of config.json consumed by the core. -/
structure Conf where
  led_ring_brightness : ℚ
  led_green_breakpoint : ℚ
  led_yellow_breakpoint : ℚ
  led_redline_flash_above : ℚ
  allow_idle_animations : Bool

/-- num_pixels (main.py line 19). -/
def numPixels : ℕ := 24

/-- The LED ring write computed by set_gauge_level: how many pixels
are lit and with which brightness-scaled color. -/
structure RingOut where
  litPixels : ℤ
  color : ℤ × ℤ × ℤ
deriving DecidableEq

/-- Gauge.set_gauge_level (main.py lines 207-237): leave idle mode,
clear the flash latch, clamp the level into [0, 1], store it, and
compute the lit pixel count and band color. -/
def set_gauge_level (conf : Conf) (g : Gauge) (level : ℚ) : Gauge × RingOut :=
  let g1 : Gauge := { g with in_idle_mode := false, flashed := false }
  let lvl : ℚ := max 0 (min 1 level)
  let g2 : Gauge := { g1 with level := lvl }
  let lit : ℤ := pyInt ((numPixels : ℚ) * lvl)
  let base : ℤ × ℤ × ℤ :=
    if lvl < conf.led_green_breakpoint then (0, 255, 0)
    else if lvl < conf.led_yellow_breakpoint then (255, 255, 0)
    else (255, 0, 0)
  let scaled : ℤ × ℤ × ℤ :=
    (pyInt ((base.1 : ℚ) * conf.led_ring_brightness),
     pyInt ((base.2.1 : ℚ) * conf.led_ring_brightness),
     pyInt ((base.2.2 : ℚ) * conf.led_ring_brightness))
  (g2, ⟨lit, scaled⟩)

/-- The local state of one sim_task loop iteration (main.py lines
308-320): last data timestamp, the idle flag, the last rendered gear,
and the shared gauge. -/
structure SimState where
  lastDataTime : ℕ
  isIdleMode : Bool
  lastGear : Option ℤ
  gauge : Gauge

/-- Observable actions of one sim_task tick. -/
structure TickEvents where
  dataReceived : Bool
  levelSet : Option ℚ
  renderedGear : Option ℤ
  renderedGlyph : Option String
  enteredIdle : Bool
  displayCleared : Bool
  idleAnimStarted : Bool
  ringBlanked : Bool
deriving DecidableEq

/-- The tick starts with no action recorded. -/
def emptyEvents : TickEvents :=
  ⟨false, none, none, none, false, false, false, false⟩

/-- main.py lines 338-342: when the active schema declares a max_rpm
field the gauge max_rpm is left alone; otherwise it is raised to rpm
whenever rpm exceeds it. -/
def maxRpmStep (s : Schema) (g : Gauge) (rpm : ℤ) : Gauge :=
  if s.fields.max_rpm.isSome then g
  else if rpm > g.max_rpm then { g with max_rpm := rpm } else g

/-- main.py lines 345-352: record the data timestamp and, when in
idle mode, leave it. -/
def dataSeen (st : SimState) (now : ℕ) : SimState :=
  let st1 : SimState := { st with lastDataTime := now }
  if st1.isIdleMode then
    { st1 with isIdleMode := false, gauge := { st1.gauge with in_idle_mode := false } }
  else st1

/-- main.py lines 355-360: compute rpm / max_rpm (ZeroDivisionError
when max_rpm is 0), store it unclamped as the level, and clamp and
display it via set_gauge_level only while below the redline
threshold. -/
def levelStep (conf : Conf) (st : SimState) (rpm : ℤ) (ev : TickEvents) :
    SimState × TickEvents × Option PyErr :=
  if st.gauge.max_rpm = 0 then (st, ev, some .zeroDiv)
  else
    let rpmNorm : ℚ := (rpm : ℚ) / (st.gauge.max_rpm : ℚ)
    let g2 : Gauge := { st.gauge with level := rpmNorm }
    if rpmNorm < conf.led_redline_flash_above then
      ({ st with gauge := (set_gauge_level conf g2 rpmNorm).1 },
       { ev with levelSet := some rpmNorm }, none)
    else
      ({ st with gauge := g2 }, ev, none)

/-- main.py lines 362-366: re-render the gear glyph only when the
decoded gear differs from the last rendered gear; the glyph comes
from two dictionary lookups, either of which can raise KeyError. -/
def renderStep (digits : List String) (st : SimState) (gear : ℤ) (ev : TickEvents) :
    SimState × TickEvents × Option PyErr :=
  if st.lastGear = some gear then (st, ev, none)
  else
    match List.lookup (toString gear) st.gauge.gear_map with
    | none => (st, ev, some .keyError)
    | some glyph =>
      if glyph ∈ digits then
        ({ st with lastGear := some gear },
         { ev with renderedGear := some gear, renderedGlyph := some glyph },
         none)
      else (st, ev, some .keyError)

/-- The telemetry-update branch of sim_task (main.py lines 338-366),
entered with non-None gear and rpm: look up the active schema (KeyError
when absent), update max_rpm, record the data time and leave idle
mode, update the level, and render the gear glyph on change. -/
def telemetryUpdate (conf : Conf) (digits : List String) (st : SimState)
    (gear rpm : ℤ) (now : ℕ) (ev : TickEvents) :
    SimState × TickEvents × Option PyErr :=
  match st.gauge.detected_game with
  | none => (st, ev, some .keyError)
  | some gid =>
    match List.lookup gid st.gauge.game_schemas with
    | none => (st, ev, some .keyError)
    | some s =>
      let stA := dataSeen { st with gauge := maxRpmStep s st.gauge rpm } now
      let evA : TickEvents := { ev with dataReceived := true }
      let r1 := levelStep conf stA rpm evA
      match r1.2.2 with
      | some e => (r1.1, r1.2.1, some e)
      | none => renderStep digits r1.1 gear r1.2.1

/-- The idle-mode check at the end of a tick (main.py lines 372-388):
with no data this tick, not already idle, and strictly more than 5
seconds since the last data, enter idle mode once: set the idle flags,
clear the detected game, reset max_rpm to 3000, clear the display,
and start the idle animation or blank the ring per configuration. -/
def idleCheck (conf : Conf) (st : SimState) (now : ℕ) (ev : TickEvents) :
    SimState × TickEvents × Option PyErr :=
  if !ev.dataReceived && !st.isIdleMode && decide (5 < now - st.lastDataTime) then
    ({ st with
        isIdleMode := true,
        gauge := { st.gauge with
                    in_idle_mode := true,
                    detected_game := none,
                    max_rpm := 3000 } },
     { ev with
        enteredIdle := true,
        displayCleared := true,
        idleAnimStarted := conf.allow_idle_animations,
        ringBlanked := !conf.allow_idle_animations },
     none)
  else (st, ev, none)

/-- One iteration of the sim_task while loop (main.py lines 322-391).
recv is none when the non-blocking socket raised OSError.  A raised
exception anywhere skips the rest of the tick and is reported to the
per-tick handler; otherwise control falls through to the idle check. -/
def tickBody (conf : Conf) (digits : List String) (st : SimState)
    (recv : Option (List ℕ)) (now : ℕ) :
    SimState × TickEvents × Option PyErr :=
  match recv with
  | none => idleCheck conf st now emptyEvents
  | some data =>
    let d := detect_game st.gauge data
    let st1 : SimState := { st with gauge := d.1 }
    match d.2 with
    | none => idleCheck conf st1 now emptyEvents
    | some gameId =>
      if gameId.length != 0 then
        match unpack_game_data st1.gauge gameId data with
        | .error e => (st1, emptyEvents, some e)
        | .ok ur =>
          match destructure2 ur with
          | .error e => (st1, emptyEvents, some e)
          | .ok (gearO, rpmO) =>
            match gearO, rpmO with
            | some gear, some rpm =>
              let r := telemetryUpdate conf digits st1 gear rpm now emptyEvents
              match r.2.2 with
              | some e => (r.1, r.2.1, some e)
              | none => idleCheck conf r.1 now r.2.1
            | _, _ => idleCheck conf st1 now emptyEvents
      else idleCheck conf st1 now emptyEvents

/-- The sim_task loop over a list of tick inputs: every tick runs,
the per-tick except swallows any error, and the count of processed
ticks is returned (main.py lines 322-395). -/
def simRun (conf : Conf) (digits : List String) :
    SimState → List (Option (List ℕ) × ℕ) → SimState × ℕ
  | st, [] => (st, 0)
  | st, i :: rest =>
      let r := tickBody conf digits st i.1 i.2
      let x := simRun conf digits r.1 rest
      (x.1, x.2 + 1)

/-- The number of idle-mode entries over a run of silent ticks
(recv raises OSError every tick) at the given tick times. -/
def silentRun (conf : Conf) (digits : List String) :
    SimState → List ℕ → ℕ
  | _, [] => 0
  | st, t :: ts =>
      let r := tickBody conf digits st none t
      (if r.2.1.enteredIdle then 1 else 0) + silentRun conf digits r.1 ts

/-- A run of the telemetry-update branch over a list of decoded
(gear, rpm) packets, collecting the gear values whose glyph was
rendered; an errored tick keeps its partial state, as the loop
handler does. -/
def telemetryRun (conf : Conf) (digits : List String) :
    SimState → List (ℤ × ℤ) → SimState × List ℤ
  | st, [] => (st, [])
  | st, p :: ps =>
      let r := telemetryUpdate conf digits st p.1 p.2 0 emptyEvents
      let x := telemetryRun conf digits r.1 ps
      (x.1,
       (match r.2.1.renderedGear with
        | some g => [g]
        | none => []) ++ x.2)

/-! Concrete fixtures used by witnesses and counterexamples. -/

/-- A one-byte unsigned format: the raw byte value. -/
def fmtU8 : Format := ⟨1, fun bs => (bs.headI : ℚ)⟩

/-- A demo schema with no max_rpm field: gear is the byte at offset 0,
rpm is the byte at offset 1 scaled by 100. -/
def schemaNoMax : Schema :=
  { name := some "DemoA"
    fields :=
      { gear := ⟨fmtU8, 0, 1⟩
        gearMap := [("-1", "R"), ("0", "N"), ("3", "3"), ("4", "4")]
        rpm := ⟨fmtU8, 1, 100⟩
        max_rpm := none } }

/-- A demo schema that declares a max_rpm field at offset 2 with
multiplier 10 (which the decoder ignores for max_rpm). -/
def schemaWithMax : Schema :=
  { name := some "DemoB"
    fields :=
      { gear := ⟨fmtU8, 0, 1⟩
        gearMap := [("-1", "R"), ("0", "N"), ("3", "3"), ("4", "4")]
        rpm := ⟨fmtU8, 1, 100⟩
        max_rpm := some ⟨fmtU8, 2, 10⟩ } }

/-- A fresh gauge as built by Gauge.__init__ and set_schemas. -/
def mkGauge (schemas : List (String × Schema)) : Gauge :=
  { max_rpm := 3000
    level := 0
    flashed := false
    flash_cycles := 0
    increasing := true
    in_idle_mode := false
    detected_game := none
    game_schemas := schemas
    gear_map := [] }

/-- A demo configuration. -/
def demoConf : Conf :=
  { led_ring_brightness := 1
    led_green_breakpoint := 1/2
    led_yellow_breakpoint := 4/5
    led_redline_flash_above := 9/10
    allow_idle_animations := true }

/-- The glyph keys available in the digits font. -/
def demoDigits : List String := ["R", "N", "1", "2", "3", "4", "5", "6"]

/-- A gauge locked onto the no-max-field demo schema, as detect_game
leaves it after a successful detection. -/
def lockedGaugeA : Gauge :=
  { mkGauge [("a", schemaNoMax)] with
      detected_game := some "a"
      gear_map := schemaNoMax.fields.gearMap }

/-- A gauge locked onto the max-field demo schema. -/
def lockedGaugeB : Gauge :=
  { mkGauge [("b", schemaWithMax)] with
      detected_game := some "b"
      gear_map := schemaWithMax.fields.gearMap }

/-- A sim loop state over the locked no-max-field gauge. -/
def stA : SimState := ⟨0, false, none, lockedGaugeA⟩

/-- A sim loop state over the locked max-field gauge. -/
def stB : SimState := ⟨0, false, none, lockedGaugeB⟩

/-- A fresh sim loop state over an undetected gauge. -/
def stFresh : SimState := ⟨0, false, none, mkGauge [("a", schemaNoMax)]⟩

/-- Specification-side decode pipeline, written from the words of the
spec (section 4.3): for each FieldSpec, read the format-sized value at
the offset, multiply by the multiplier, and then truncate to integer.
Claim C5 asserts this pipeline for every referenced field; the source
is compared against it. -/
def specFieldDecode (f : FieldSpec) (data : List ℕ) : Option ℤ :=
  match unpack_from f.format data f.offset with
  | .error _ => none
  | .ok raw => some (pyInt (raw * f.multiplier))

/-! Helper lemmas about the decoder and the detector. -/

theorem unpack_from_of_le {fmt : Format} {data : List ℕ} {offset : ℕ}
    (h : offset + fmt.width ≤ data.length) :
    unpack_from fmt data offset = .ok (fmt.interp ((data.drop offset).take fmt.width)) := by
  simp [unpack_from, h]

theorem unpack_from_of_lt {fmt : Format} {data : List ℕ} {offset : ℕ}
    (h : data.length < offset + fmt.width) :
    unpack_from fmt data offset = .error .structError := by
  have h' : ¬ (offset + fmt.width ≤ data.length) := by omega
  simp [unpack_from, h']

theorem unpackSchema_ok_of_length {s : Schema} {data : List ℕ}
    (h : ∀ f ∈ referencedFields s, f.offset + f.format.width ≤ data.length) :
    ∃ gear rpm m, unpackSchema s data = .ok (gear, rpm, m) := by
  have hg := h s.fields.gear (by simp [referencedFields])
  have hr := h s.fields.rpm (by simp [referencedFields])
  cases hm : s.fields.max_rpm with
  | none =>
      refine ⟨pyInt (s.fields.gear.format.interp
          ((data.drop s.fields.gear.offset).take s.fields.gear.format.width) *
          s.fields.gear.multiplier),
        pyInt (s.fields.rpm.format.interp
          ((data.drop s.fields.rpm.offset).take s.fields.rpm.format.width) *
          s.fields.rpm.multiplier), none, ?_⟩
      simp [unpackSchema, decodeField, hm, unpack_from_of_le hg, unpack_from_of_le hr]
  | some mi =>
      have hmx := h mi (by simp [referencedFields, hm])
      refine ⟨pyInt (s.fields.gear.format.interp
          ((data.drop s.fields.gear.offset).take s.fields.gear.format.width) *
          s.fields.gear.multiplier),
        pyInt (s.fields.rpm.format.interp
          ((data.drop s.fields.rpm.offset).take s.fields.rpm.format.width) *
          s.fields.rpm.multiplier),
        some (pyInt (mi.format.interp ((data.drop mi.offset).take mi.format.width))), ?_⟩
      simp [unpackSchema, decodeField, decodeFieldRaw, hm,
        unpack_from_of_le hg, unpack_from_of_le hr, unpack_from_of_le hmx]

theorem unpackSchema_length_of_ok {s : Schema} {data : List ℕ}
    {t : ℤ × ℤ × Option ℤ} (h : unpackSchema s data = .ok t) :
    ∀ f ∈ referencedFields s, f.offset + f.format.width ≤ data.length := by
  intro f hf
  by_contra hlen
  have hlen' : data.length < f.offset + f.format.width := by omega
  have herr := @unpack_from_of_lt f.format data f.offset hlen'
  simp only [referencedFields, List.mem_append, List.mem_cons,
    List.not_mem_nil, or_false] at hf
  rcases hf with hf | hf
  · rcases hf with hf | hf
    · subst hf
      simp [unpackSchema, decodeField, herr] at h
    · subst hf
      cases hgu : unpack_from s.fields.gear.format data s.fields.gear.offset with
      | error e => simp [unpackSchema, decodeField, hgu] at h
      | ok raw => simp [unpackSchema, decodeField, hgu, herr] at h
  · rcases hmx : s.fields.max_rpm with _ | mi
    · simp [hmx] at hf
    · simp only [hmx, List.mem_singleton] at hf
      subst hf
      cases hgu : unpack_from s.fields.gear.format data s.fields.gear.offset with
      | error e => simp [unpackSchema, decodeField, hgu] at h
      | ok raw =>
        cases hru : unpack_from s.fields.rpm.format data s.fields.rpm.offset with
        | error e => simp [unpackSchema, decodeField, hgu, hru] at h
        | ok raw2 =>
            simp [unpackSchema, decodeField, decodeFieldRaw, hgu, hru, hmx, herr] at h

theorem detectLoopT_skip {g : Gauge} {data : List ℕ} {gameId : String}
    {s : Schema} {rest : List (String × Schema)}
    (h : acceptsB s data = false) :
    detectLoopT g data ((gameId, s) :: rest) =
      ((detectLoopT g data rest).1, (detectLoopT g data rest).2.1,
        (detectLoopT g data rest).2.2 + 1) := by
  cases hu : unpackSchema s data with
  | error e => simp [detectLoopT, hu]
  | ok t =>
      obtain ⟨gear, rpm, m⟩ := t
      have hp : plausibleB gear rpm = false := by
        simpa [acceptsB, hu] using h
      simp [detectLoopT, hu, hp]

theorem detectLoopT_accept {g : Gauge} {data : List ℕ} {gameId : String}
    {s : Schema} {rest : List (String × Schema)} {gear rpm : ℤ} {m : Option ℤ}
    (hu : unpackSchema s data = .ok (gear, rpm, m))
    (hp : plausibleB gear rpm = true) :
    detectLoopT g data ((gameId, s) :: rest) =
      ({ g with
          detected_game := some gameId,
          gear_map := s.fields.gearMap,
          max_rpm := if truthyInt m then m.getD g.max_rpm else g.max_rpm },
       some gameId, 1) := by
  simp [detectLoopT, hu, hp]

theorem detectLoopT_none {g : Gauge} {data : List ℕ}
    {l : List (String × Schema)}
    (h : ∀ p ∈ l, acceptsB p.2 data = false) :
    detectLoopT g data l = (g, none, l.length) := by
  induction l with
  | nil => simp [detectLoopT]
  | cons p ps ih =>
      obtain ⟨gameId, s⟩ := p
      rw [detectLoopT_skip (h (gameId, s) (by simp)),
        ih (fun q hq => h q (by simp [hq]))]
      simp

theorem detectLoopT_pre {g : Gauge} {data : List ℕ}
    {pre l : List (String × Schema)}
    (h : ∀ p ∈ pre, acceptsB p.2 data = false) :
    detectLoopT g data (pre ++ l) =
      ((detectLoopT g data l).1, (detectLoopT g data l).2.1,
        (detectLoopT g data l).2.2 + pre.length) := by
  induction pre with
  | nil => simp
  | cons p ps ih =>
      obtain ⟨gameId, s⟩ := p
      rw [List.cons_append, detectLoopT_skip (h (gameId, s) (by simp)),
        ih (fun q hq => h q (by simp [hq]))]
      simp [Nat.add_assoc, Nat.add_comm 1 ps.length]

theorem detectLoopT_game_schemas {g : Gauge} {data : List ℕ}
    {l : List (String × Schema)} :
    (detectLoopT g data l).1.game_schemas = g.game_schemas := by
  induction l with
  | nil => simp [detectLoopT]
  | cons p ps ih =>
      obtain ⟨gameId, s⟩ := p
      cases hu : unpackSchema s data with
      | error e => simpa [detectLoopT, hu] using ih
      | ok t =>
          obtain ⟨gear, rpm, m⟩ := t
          by_cases hp : plausibleB gear rpm = true
          · simp [detectLoopT, hu, hp]
          · simp only [Bool.not_eq_true] at hp
            simpa [detectLoopT, hu, hp] using ih

theorem detect_game_schemas {g : Gauge} {data : List ℕ} :
    ((detect_game g data).1).game_schemas = g.game_schemas := by
  by_cases h : truthyStr g.detected_game = true
  · simp [detect_game, detect_gameT, h]
  · simp only [Bool.not_eq_true] at h
    simp [detect_game, detect_gameT, h, detectLoopT_game_schemas]

/-! Helper lemmas about the gauge state machine steps. -/

theorem set_gauge_level_spec (conf : Conf) (g : Gauge) (l : ℚ) :
    ((set_gauge_level conf g l).1).level = max 0 (min 1 l) ∧
    ((set_gauge_level conf g l).1).max_rpm = g.max_rpm ∧
    ((set_gauge_level conf g l).1).detected_game = g.detected_game ∧
    ((set_gauge_level conf g l).1).game_schemas = g.game_schemas ∧
    ((set_gauge_level conf g l).1).gear_map = g.gear_map := by
  simp [set_gauge_level]

theorem maxRpmStep_spec (s : Schema) (g : Gauge) (rpm : ℤ) :
    (maxRpmStep s g rpm).max_rpm =
      (if s.fields.max_rpm.isSome then g.max_rpm
       else if rpm > g.max_rpm then rpm else g.max_rpm) ∧
    (maxRpmStep s g rpm).detected_game = g.detected_game ∧
    (maxRpmStep s g rpm).game_schemas = g.game_schemas ∧
    (maxRpmStep s g rpm).gear_map = g.gear_map := by
  unfold maxRpmStep
  split_ifs <;> simp

theorem dataSeen_spec (st : SimState) (now : ℕ) :
    (dataSeen st now).gauge.max_rpm = st.gauge.max_rpm ∧
    (dataSeen st now).gauge.detected_game = st.gauge.detected_game ∧
    (dataSeen st now).gauge.game_schemas = st.gauge.game_schemas ∧
    (dataSeen st now).gauge.gear_map = st.gauge.gear_map ∧
    (dataSeen st now).lastGear = st.lastGear := by
  unfold dataSeen
  by_cases h : st.isIdleMode = true <;> simp [h]

theorem levelStep_zero (conf : Conf) (st : SimState) (rpm : ℤ) (ev : TickEvents)
    (h : st.gauge.max_rpm = 0) :
    levelStep conf st rpm ev = (st, ev, some .zeroDiv) := by
  simp [levelStep, h]

theorem levelStep_spec (conf : Conf) (st : SimState) (rpm : ℤ) (ev : TickEvents)
    (h : st.gauge.max_rpm ≠ 0) :
    (levelStep conf st rpm ev).2.2 = none ∧
    (levelStep conf st rpm ev).1.gauge.level =
      (if (rpm : ℚ) / (st.gauge.max_rpm : ℚ) < conf.led_redline_flash_above
       then max 0 (min 1 ((rpm : ℚ) / (st.gauge.max_rpm : ℚ)))
       else (rpm : ℚ) / (st.gauge.max_rpm : ℚ)) ∧
    (levelStep conf st rpm ev).1.gauge.max_rpm = st.gauge.max_rpm ∧
    (levelStep conf st rpm ev).1.gauge.detected_game = st.gauge.detected_game ∧
    (levelStep conf st rpm ev).1.gauge.game_schemas = st.gauge.game_schemas ∧
    (levelStep conf st rpm ev).1.gauge.gear_map = st.gauge.gear_map ∧
    (levelStep conf st rpm ev).1.lastGear = st.lastGear ∧
    (levelStep conf st rpm ev).2.1.renderedGear = ev.renderedGear := by
  unfold levelStep
  rw [if_neg h]
  by_cases hlt : (rpm : ℚ) / (st.gauge.max_rpm : ℚ) < conf.led_redline_flash_above
  · simp [hlt, set_gauge_level]
  · simp [hlt]

theorem renderStep_same (digits : List String) (st : SimState) (gear : ℤ)
    (ev : TickEvents) (h : st.lastGear = some gear) :
    renderStep digits st gear ev = (st, ev, none) := by
  simp [renderStep, h]

theorem renderStep_changed (digits : List String) (st : SimState) (gear : ℤ)
    (ev : TickEvents) (glyph : String)
    (h : st.lastGear ≠ some gear)
    (hlk : List.lookup (toString gear) st.gauge.gear_map = some glyph)
    (hdg : glyph ∈ digits) :
    renderStep digits st gear ev =
      ({ st with lastGear := some gear },
       { ev with renderedGear := some gear, renderedGlyph := some glyph },
       none) := by
  simp [renderStep, h, hlk, hdg]

theorem renderStep_gauge (digits : List String) (st : SimState) (gear : ℤ)
    (ev : TickEvents) :
    (renderStep digits st gear ev).1.gauge = st.gauge := by
  unfold renderStep
  by_cases h : st.lastGear = some gear
  · simp [h]
  · cases hlk : List.lookup (toString gear) st.gauge.gear_map with
    | none => simp [h, hlk]
    | some glyph => by_cases hdg : glyph ∈ digits <;> simp [h, hlk, hdg]

theorem telemetryUpdate_spec {conf : Conf} {digits : List String} {st : SimState}
    {gear rpm : ℤ} {now : ℕ} {ev : TickEvents} {gid : String} {s : Schema}
    (hd : st.gauge.detected_game = some gid)
    (hs : List.lookup gid st.gauge.game_schemas = some s)
    (m1 : ℤ)
    (hm1 : m1 = (if s.fields.max_rpm.isSome then st.gauge.max_rpm
                 else if rpm > st.gauge.max_rpm then rpm else st.gauge.max_rpm)) :
    (telemetryUpdate conf digits st gear rpm now ev).1.gauge.max_rpm = m1 ∧
    (telemetryUpdate conf digits st gear rpm now ev).1.gauge.detected_game =
      st.gauge.detected_game ∧
    (telemetryUpdate conf digits st gear rpm now ev).1.gauge.game_schemas =
      st.gauge.game_schemas ∧
    (telemetryUpdate conf digits st gear rpm now ev).1.gauge.gear_map =
      st.gauge.gear_map ∧
    (m1 = 0 →
       (telemetryUpdate conf digits st gear rpm now ev).2.2 = some .zeroDiv ∧
       (telemetryUpdate conf digits st gear rpm now ev).1.lastGear = st.lastGear ∧
       (telemetryUpdate conf digits st gear rpm now ev).2.1.renderedGear =
         ev.renderedGear) ∧
    (m1 ≠ 0 →
       (telemetryUpdate conf digits st gear rpm now ev).1.gauge.level =
         (if (rpm : ℚ) / (m1 : ℚ) < conf.led_redline_flash_above
          then max 0 (min 1 ((rpm : ℚ) / (m1 : ℚ)))
          else (rpm : ℚ) / (m1 : ℚ)) ∧
       (st.lastGear = some gear →
          (telemetryUpdate conf digits st gear rpm now ev).2.2 = none ∧
          (telemetryUpdate conf digits st gear rpm now ev).1.lastGear = some gear ∧
          (telemetryUpdate conf digits st gear rpm now ev).2.1.renderedGear =
            ev.renderedGear) ∧
       (st.lastGear ≠ some gear →
          ∀ glyph, List.lookup (toString gear) st.gauge.gear_map = some glyph →
            glyph ∈ digits →
            (telemetryUpdate conf digits st gear rpm now ev).2.2 = none ∧
            (telemetryUpdate conf digits st gear rpm now ev).1.lastGear = some gear ∧
            (telemetryUpdate conf digits st gear rpm now ev).2.1.renderedGear =
              some gear)) := by
  obtain ⟨hA1, hA2, hA3, hA4⟩ := maxRpmStep_spec s st.gauge rpm
  obtain ⟨hB1, hB2, hB3, hB4, hB5⟩ :=
    dataSeen_spec { st with gauge := maxRpmStep s st.gauge rpm } now
  set stA := dataSeen { st with gauge := maxRpmStep s st.gauge rpm } now with hstA
  have hmax : stA.gauge.max_rpm = m1 := by
    rw [hB1, hm1]; simpa using hA1
  have hdetA : stA.gauge.detected_game = st.gauge.detected_game := by
    rw [hB2]; simpa using hA2
  have hschA : stA.gauge.game_schemas = st.gauge.game_schemas := by
    rw [hB3]; simpa using hA3
  have hmapA : stA.gauge.gear_map = st.gauge.gear_map := by
    rw [hB4]; simpa using hA4
  have hlastA2 : stA.lastGear = st.lastGear := by
    simpa using hB5
  by_cases hz : m1 = 0
  · have hlz : levelStep conf stA rpm { ev with dataReceived := true } =
        (stA, { ev with dataReceived := true }, some .zeroDiv) :=
      levelStep_zero _ _ _ _ (by rw [hmax, hz])
    have htu : telemetryUpdate conf digits st gear rpm now ev =
        (stA, { ev with dataReceived := true }, some .zeroDiv) := by
      simp only [telemetryUpdate, hd, hs]
      rw [← hstA, hlz]
    rw [htu]
    exact ⟨hmax, hdetA, hschA, hmapA,
      fun _ => ⟨rfl, hlastA2, rfl⟩, fun hne => absurd hz hne⟩
  · have hnz : stA.gauge.max_rpm ≠ 0 := by rw [hmax]; exact hz
    obtain ⟨hL0, hLlvl, hLmax, hLdet, hLsch, hLmap, hLlast, hLrg⟩ :=
      levelStep_spec conf stA rpm { ev with dataReceived := true } hnz
    set r1 := levelStep conf stA rpm { ev with dataReceived := true } with hr1
    have htu : telemetryUpdate conf digits st gear rpm now ev =
        renderStep digits r1.1 gear r1.2.1 := by
      simp only [telemetryUpdate, hd, hs]
      rw [← hstA, ← hr1, hL0]
    have hrmax : r1.1.gauge.max_rpm = m1 := by rw [hLmax, hmax]
    have hrdet : r1.1.gauge.detected_game = st.gauge.detected_game := by
      rw [hLdet, hdetA]
    have hrsch : r1.1.gauge.game_schemas = st.gauge.game_schemas := by
      rw [hLsch, hschA]
    have hrmap : r1.1.gauge.gear_map = st.gauge.gear_map := by
      rw [hLmap, hmapA]
    have hrlast : r1.1.lastGear = st.lastGear := by rw [hLlast, hlastA2]
    have hrlvl : r1.1.gauge.level =
        (if (rpm : ℚ) / (m1 : ℚ) < conf.led_redline_flash_above
         then max 0 (min 1 ((rpm : ℚ) / (m1 : ℚ)))
         else (rpm : ℚ) / (m1 : ℚ)) := by
      rw [hLlvl, hmax]
    have hrrg : r1.2.1.renderedGear = ev.renderedGear := by
      simpa using hLrg
    have hgg := renderStep_gauge digits r1.1 gear r1.2.1
    rw [htu]
    refine ⟨by rw [hgg, hrmax], by rw [hgg, hrdet], by rw [hgg, hrsch],
      by rw [hgg, hrmap], fun h0 => absurd h0 hz, fun _ => ⟨by rw [hgg, hrlvl], ?_, ?_⟩⟩
    · intro hg
      rw [renderStep_same digits r1.1 gear r1.2.1 (by rw [hrlast]; exact hg)]
      exact ⟨rfl, by rw [hrlast, hg], hrrg⟩
    · intro hg glyph hlk hdg
      have hlk2 : List.lookup (toString gear) r1.1.gauge.gear_map = some glyph := by
        rw [hrmap]; exact hlk
      rw [renderStep_changed digits r1.1 gear r1.2.1 glyph
        (by rw [hrlast]; exact hg) hlk2 hdg]
      exact ⟨rfl, rfl, rfl⟩

/-! Helper lemmas about the sim loop tick. -/

theorem tickBody_none (conf : Conf) (digits : List String) (st : SimState) (now : ℕ) :
    tickBody conf digits st none now = idleCheck conf st now emptyEvents := rfl

theorem idleCheck_entry (conf : Conf) (st : SimState) (now : ℕ) (ev : TickEvents)
    (hdr : ev.dataReceived = false) (hidle : st.isIdleMode = false)
    (ht : 5 < now - st.lastDataTime) :
    idleCheck conf st now ev =
      ({ st with
          isIdleMode := true,
          gauge := { st.gauge with
                      in_idle_mode := true,
                      detected_game := none,
                      max_rpm := 3000 } },
       { ev with
          enteredIdle := true,
          displayCleared := true,
          idleAnimStarted := conf.allow_idle_animations,
          ringBlanked := !conf.allow_idle_animations },
       none) := by
  simp [idleCheck, hdr, hidle, ht]

theorem idleCheck_skip_idle (conf : Conf) (st : SimState) (now : ℕ) (ev : TickEvents)
    (hidle : st.isIdleMode = true) :
    idleCheck conf st now ev = (st, ev, none) := by
  simp [idleCheck, hidle]

theorem idleCheck_skip_time (conf : Conf) (st : SimState) (now : ℕ) (ev : TickEvents)
    (ht : ¬ 5 < now - st.lastDataTime) :
    idleCheck conf st now ev = (st, ev, none) := by
  simp [idleCheck, ht]

theorem ifgt_eq_max (a b : ℤ) : (if b > a then b else a) = max a b := by
  by_cases h : b > a
  · simp [h, max_eq_right h.le]
  · simp [h, max_eq_left (not_lt.mp h)]

theorem foldl_max_bounds (l : List ℤ) :
    ∀ m0 : ℤ, m0 ≤ List.foldl max m0 l ∧ ∀ r ∈ l, r ≤ List.foldl max m0 l := by
  induction l with
  | nil => intro m0; simp
  | cons a t ih =>
      intro m0
      simp only [List.foldl_cons]
      refine ⟨le_trans (le_max_left m0 a) (ih (max m0 a)).1, ?_⟩
      intro r hr
      rcases List.mem_cons.mp hr with h | h
      · subst h
        exact le_trans (le_max_right m0 r) (ih (max m0 r)).1
      · exact (ih (max m0 a)).2 r h

theorem telemetryRun_max (conf : Conf) (digits : List String)
    (packets : List (ℤ × ℤ)) (gid : String) (s : Schema)
    (hnone : s.fields.max_rpm = none) :
    ∀ st : SimState, st.gauge.detected_game = some gid →
      List.lookup gid st.gauge.game_schemas = some s →
      (telemetryRun conf digits st packets).1.gauge.max_rpm =
        List.foldl max st.gauge.max_rpm (packets.map Prod.snd) := by
  induction packets with
  | nil => intro st _ _; simp [telemetryRun]
  | cons p ps ih =>
      intro st hd hs
      obtain ⟨hmax, hdet, hsch, _, _, _⟩ :=
        @telemetryUpdate_spec conf digits st p.1 p.2 0 emptyEvents gid s hd hs
          (if s.fields.max_rpm.isSome then st.gauge.max_rpm
           else if p.2 > st.gauge.max_rpm then p.2 else st.gauge.max_rpm) rfl
      have hd' :
          (telemetryUpdate conf digits st p.1 p.2 0 emptyEvents).1.gauge.detected_game =
            some gid := by rw [hdet, hd]
      have hs' :
          List.lookup gid
            (telemetryUpdate conf digits st p.1 p.2 0 emptyEvents).1.gauge.game_schemas =
            some s := by rw [hsch]; exact hs
      have hmax' :
          (telemetryUpdate conf digits st p.1 p.2 0 emptyEvents).1.gauge.max_rpm =
            max st.gauge.max_rpm p.2 := by
        rw [hmax]
        simp only [hnone, Option.isSome_none, Bool.false_eq_true, if_false]
        exact ifgt_eq_max st.gauge.max_rpm p.2
      have hstep :
          (telemetryRun conf digits st (p :: ps)).1 =
            (telemetryRun conf digits
              (telemetryUpdate conf digits st p.1 p.2 0 emptyEvents).1 ps).1 := rfl
      rw [hstep, ih _ hd' hs', hmax']
      simp [List.foldl_cons]

/-! Claim theorems. -/

/-- Claim C1: for every game id present in the schema registry and every
packet long enough to read its fields, unpack_game_data returns the
3-tuple (gear, rpm, max_rpm), while for an absent game id it returns
the 2-tuple (None, None); sim_task destructures the result into exactly
two names, so the destructuring raises ValueError for every packet on
which detection succeeded, and the telemetry-update branch (level
update, gear glyph render) is never reached: the tick ends with an
error and no recorded tick event. -/
theorem c1_unpack_arity_dead_branch :
    (∀ (g : Gauge) (gameId : String) (data : List ℕ) (s : Schema),
       List.lookup gameId g.game_schemas = some s →
       (∀ f ∈ referencedFields s, f.offset + f.format.width ≤ data.length) →
       ∃ gear rpm m, unpack_game_data g gameId data = .ok (.triple gear rpm m) ∧
         (UnpackResult.triple gear rpm m).arity = 3) ∧
    (∀ (g : Gauge) (gameId : String) (data : List ℕ),
       List.lookup gameId g.game_schemas = none →
       unpack_game_data g gameId data = .ok .none2 ∧ UnpackResult.arity .none2 = 2) ∧
    (∀ (gear rpm : ℤ) (m : Option ℤ),
       destructure2 (.triple gear rpm m) = .error .valueError) ∧
    (∀ (conf : Conf) (digits : List String) (st : SimState) (data : List ℕ)
       (now : ℕ) (gameId : String),
       (detect_game st.gauge data).2 = some gameId →
       gameId.length ≠ 0 →
       (List.lookup gameId st.gauge.game_schemas).isSome = true →
       (tickBody conf digits st (some data) now).2.2.isSome = true ∧
       (tickBody conf digits st (some data) now).2.1 = emptyEvents) := by
  refine ⟨?_, ?_, ?_, ?_⟩
  · intro g gameId data s hlk hlen
    obtain ⟨gear, rpm, m, hu⟩ := unpackSchema_ok_of_length hlen
    exact ⟨gear, rpm, m, by simp [unpack_game_data, hlk, hu], rfl⟩
  · intro g gameId data hlk
    exact ⟨by simp [unpack_game_data, hlk], rfl⟩
  · intro gear rpm m
    rfl
  · intro conf digits st data now gameId hdet hne hlk
    obtain ⟨s, hs⟩ := Option.isSome_iff_exists.mp hlk
    have hsch : ((detect_game st.gauge data).1).game_schemas = st.gauge.game_schemas :=
      detect_game_schemas
    have hne' : (gameId.length != 0) = true := by simpa using hne
    cases hu : unpackSchema s data with
    | error e =>
        constructor <;>
          simp [tickBody, hdet, hne', unpack_game_data, hsch, hs, hu]
    | ok t =>
        obtain ⟨a, b, c⟩ := t
        constructor <;>
          simp [tickBody, hdet, hne', unpack_game_data, hsch, hs, hu, destructure2]

unseal Rat.mul Rat.inv Rat.add Rat.sub in
/-- Witness for claim C1 at a concrete registry, schema, and packet. -/
theorem c1_unpack_arity_dead_branch_witness :
    (∃ gear rpm m,
       unpack_game_data (mkGauge [("a", schemaNoMax)]) "a" [3, 50] =
         .ok (.triple gear rpm m) ∧ (UnpackResult.triple gear rpm m).arity = 3) ∧
    (unpack_game_data (mkGauge [("a", schemaNoMax)]) "nope" [3, 50] = .ok .none2 ∧
       UnpackResult.arity .none2 = 2) ∧
    destructure2 (.triple 3 5000 none) = .error .valueError ∧
    ((tickBody demoConf demoDigits stFresh (some [3, 50]) 1).2.2.isSome = true ∧
     (tickBody demoConf demoDigits stFresh (some [3, 50]) 1).2.1 = emptyEvents) :=
  ⟨c1_unpack_arity_dead_branch.1 (mkGauge [("a", schemaNoMax)]) "a" [3, 50]
      schemaNoMax rfl (by decide),
   c1_unpack_arity_dead_branch.2.1 (mkGauge [("a", schemaNoMax)]) "nope" [3, 50] rfl,
   c1_unpack_arity_dead_branch.2.2.1 3 5000 none,
   c1_unpack_arity_dead_branch.2.2.2 demoConf demoDigits stFresh [3, 50] 1 "a"
      (by decide) (by decide) (by decide)⟩

/-- Claim C4: a packet shorter than a candidate schema's maximum field
offset plus width makes that schema's decode raise, and any decode
error during a detection trial makes detection skip that schema and
continue with the remaining schemas in registry order, rather than
failing. -/
theorem c4_short_packet_schema_skipped :
    (∀ (s : Schema) (data : List ℕ),
       (∃ f ∈ referencedFields s, data.length < f.offset + f.format.width) →
       ∃ e, unpackSchema s data = .error e) ∧
    (∀ (g : Gauge) (data : List ℕ) (gameId : String) (s : Schema)
       (rest : List (String × Schema)) (e : PyErr),
       unpackSchema s data = .error e →
       detectLoopT g data ((gameId, s) :: rest) =
         ((detectLoopT g data rest).1, (detectLoopT g data rest).2.1,
          (detectLoopT g data rest).2.2 + 1)) := by
  constructor
  · intro s data h
    obtain ⟨f, hf, hlen⟩ := h
    cases hres : unpackSchema s data with
    | error e => exact ⟨e, rfl⟩
    | ok t => exact absurd (unpackSchema_length_of_ok hres f hf) (by omega)
  · intro g data gameId s rest e h
    exact detectLoopT_skip (by simp [acceptsB, h])

unseal Rat.mul Rat.inv Rat.add Rat.sub in
/-- Witness for claim C4: a two-byte packet is too short for the demo
schema that reads a max_rpm byte at offset 2, and the detection loop
skips it and locks the next schema. -/
theorem c4_short_packet_schema_skipped_witness :
    (∃ e, unpackSchema schemaWithMax [3, 50] = .error e) ∧
    detectLoopT (mkGauge [("b", schemaWithMax), ("a", schemaNoMax)]) [3, 50]
        [("b", schemaWithMax), ("a", schemaNoMax)] =
      ((detectLoopT (mkGauge [("b", schemaWithMax), ("a", schemaNoMax)]) [3, 50]
          [("a", schemaNoMax)]).1,
       (detectLoopT (mkGauge [("b", schemaWithMax), ("a", schemaNoMax)]) [3, 50]
          [("a", schemaNoMax)]).2.1,
       (detectLoopT (mkGauge [("b", schemaWithMax), ("a", schemaNoMax)]) [3, 50]
          [("a", schemaNoMax)]).2.2 + 1) :=
  ⟨c4_short_packet_schema_skipped.1 schemaWithMax [3, 50]
      ⟨⟨fmtU8, 2, 10⟩, by simp [referencedFields, schemaWithMax, fmtU8], by decide⟩,
   c4_short_packet_schema_skipped.2 (mkGauge [("b", schemaWithMax), ("a", schemaNoMax)])
      [3, 50] "b" schemaWithMax [("a", schemaNoMax)] .structError (by decide)⟩

unseal Rat.mul Rat.inv Rat.add Rat.sub in
/-- Claim C5 counterexample: the decoder does not apply the multiplier
to the max-RPM field.  For the demo schema whose max_rpm FieldSpec has
multiplier 10 and reads the byte 100, the claimed pipeline (multiply
then truncate) yields 1000, but the code decodes 100. -/
theorem c5_counterexample :
    unpackSchema schemaWithMax [3, 50, 100] = .ok (3, 5000, some 100) ∧
    specFieldDecode ⟨fmtU8, 2, 10⟩ [3, 50, 100] = some 1000 ∧
    schemaWithMax.fields.max_rpm = some ⟨fmtU8, 2, 10⟩ ∧
    (100 : ℤ) ≠ 1000 := by
  refine ⟨by decide, by decide, rfl, by decide⟩

/-- Claim C5 amended: gear and RPM are decoded by reading the
format-sized value at the offset, multiplying by the multiplier, and
then truncating (multiplication before truncation); the max-RPM field
is read and truncated without applying its multiplier. -/
theorem c5_decode_pipeline_amended (s : Schema) (data : List ℕ)
    (gear rpm : ℤ) (m : Option ℤ)
    (h : unpackSchema s data = .ok (gear, rpm, m)) :
    specFieldDecode s.fields.gear data = some gear ∧
    specFieldDecode s.fields.rpm data = some rpm ∧
    (s.fields.max_rpm = none → m = none) ∧
    (∀ mi, s.fields.max_rpm = some mi →
       ∃ raw, unpack_from mi.format data mi.offset = .ok raw ∧
         m = some (pyInt raw)) := by
  cases hgu : unpack_from s.fields.gear.format data s.fields.gear.offset with
  | error e => simp [unpackSchema, decodeField, hgu] at h
  | ok rawg =>
    cases hru : unpack_from s.fields.rpm.format data s.fields.rpm.offset with
    | error e => simp [unpackSchema, decodeField, hgu, hru] at h
    | ok rawr =>
      cases hmx : s.fields.max_rpm with
      | none =>
          simp only [unpackSchema, decodeField, hgu, hru, hmx, Except.ok.injEq,
            Prod.mk.injEq] at h
          obtain ⟨hg, hr, hm⟩ := h
          refine ⟨by simp [specFieldDecode, hgu, hg], by simp [specFieldDecode, hru, hr],
            fun _ => hm.symm, fun mi hmi => Option.noConfusion hmi⟩
      | some mi =>
        cases hmu : unpack_from mi.format data mi.offset with
        | error e =>
            simp [unpackSchema, decodeField, decodeFieldRaw, hgu, hru, hmx, hmu] at h
        | ok rawm =>
            simp only [unpackSchema, decodeField, decodeFieldRaw, hgu, hru, hmx, hmu,
              Except.ok.injEq, Prod.mk.injEq] at h
            obtain ⟨hg, hr, hm⟩ := h
            refine ⟨by simp [specFieldDecode, hgu, hg], by simp [specFieldDecode, hru, hr],
              fun hc => Option.noConfusion hc, fun mi2 hmi2 => ?_⟩
            have hmi2' : mi = mi2 := Option.some.inj hmi2
            subst hmi2'
            exact ⟨rawm, hmu, hm.symm⟩

unseal Rat.mul Rat.inv Rat.add Rat.sub in
/-- Witness for the amended claim C5 at the demo schema and packet. -/
theorem c5_decode_pipeline_amended_witness :
    specFieldDecode schemaWithMax.fields.gear [3, 50, 100] = some 3 ∧
    specFieldDecode schemaWithMax.fields.rpm [3, 50, 100] = some 5000 ∧
    (schemaWithMax.fields.max_rpm = none → some (100 : ℤ) = none) ∧
    (∀ mi, schemaWithMax.fields.max_rpm = some mi →
       ∃ raw, unpack_from mi.format [3, 50, 100] mi.offset = .ok raw ∧
         some (100 : ℤ) = some (pyInt raw)) :=
  c5_decode_pipeline_amended schemaWithMax [3, 50, 100] 3 5000 (some 100) (by decide)

/-- Claim C10: no error raised while processing a tick terminates the
sim loop: the run over any list of tick inputs processes every tick,
and a tick whose body raised continues with the partially updated
state on the next iteration. -/
theorem c10_loop_survives_all_errors :
    (∀ (conf : Conf) (digits : List String) (st : SimState)
       (ins : List (Option (List ℕ) × ℕ)),
       (simRun conf digits st ins).2 = ins.length) ∧
    (∀ (conf : Conf) (digits : List String) (st : SimState)
       (recv : Option (List ℕ)) (now : ℕ) (ins : List (Option (List ℕ) × ℕ)) (e : PyErr),
       (tickBody conf digits st recv now).2.2 = some e →
       (simRun conf digits st ((recv, now) :: ins)).1 =
         (simRun conf digits (tickBody conf digits st recv now).1 ins).1 ∧
       (simRun conf digits st ((recv, now) :: ins)).2 = ins.length + 1) := by
  have h1 : ∀ (conf : Conf) (digits : List String)
      (ins : List (Option (List ℕ) × ℕ)) (st : SimState),
      (simRun conf digits st ins).2 = ins.length := by
    intro conf digits ins
    induction ins with
    | nil => intro st; rfl
    | cons i rest ih => intro st; simp [simRun, ih]
  refine ⟨fun conf digits st ins => h1 conf digits ins st, ?_⟩
  intro conf digits st recv now ins e _
  exact ⟨rfl, by simp [simRun, h1]⟩

unseal Rat.mul Rat.inv Rat.add Rat.sub in
/-- Witness for claim C10: a run over two ticks, the first of which
raises ValueError from the arity mismatch, still processes both. -/
theorem c10_loop_survives_all_errors_witness :
    (simRun demoConf demoDigits stFresh [(some [3, 50], 1), (none, 2)]).2 = 2 ∧
    ((simRun demoConf demoDigits stFresh [(some [3, 50], 1), (none, 2)]).1 =
       (simRun demoConf demoDigits
         (tickBody demoConf demoDigits stFresh (some [3, 50]) 1).1 [(none, 2)]).1 ∧
     (simRun demoConf demoDigits stFresh [(some [3, 50], 1), (none, 2)]).2 = 1 + 1) :=
  ⟨c10_loop_survives_all_errors.1 demoConf demoDigits stFresh
      [(some [3, 50], 1), (none, 2)],
   c10_loop_survives_all_errors.2 demoConf demoDigits stFresh (some [3, 50]) 1
      [(none, 2)] .valueError (by decide)⟩

unseal Rat.mul Rat.inv Rat.add Rat.sub in
/-- Claim C2 counterexample: with a locked schema that declares
max_rpm, the per-packet update at rpm 3500 and max_rpm 3000 completes
without error and leaves level = 7/6, which is not in [0, 1]: the
stored level is not clamped when the ratio is at or above the redline
threshold. -/
theorem c2_counterexample :
    (telemetryUpdate demoConf demoDigits stB 3 3500 0 emptyEvents).2.2 = none ∧
    (telemetryUpdate demoConf demoDigits stB 3 3500 0 emptyEvents).1.gauge.level = 7 / 6 ∧
    ¬ (telemetryUpdate demoConf demoDigits stB 3 3500 0 emptyEvents).1.gauge.level ≤ 1 := by
  refine ⟨by decide, by decide, by decide⟩

/-- Claim C2 amended: set_gauge_level clamps the level it stores and
displays to [0, 1]; but the sim_task update computes rpm / max_rpm
after the max_rpm step, stores it through set_gauge_level (clamped)
only while the ratio is below the redline threshold and stores the raw
unclamped ratio otherwise, and when the effective max_rpm is 0 the
division raises ZeroDivisionError (caught by the per-tick handler)
instead of yielding level 1. -/
theorem c2_level_clamping_amended :
    (∀ (conf : Conf) (g : Gauge) (l : ℚ),
       ((set_gauge_level conf g l).1).level = max 0 (min 1 l) ∧
       0 ≤ ((set_gauge_level conf g l).1).level ∧
       ((set_gauge_level conf g l).1).level ≤ 1) ∧
    (∀ (conf : Conf) (digits : List String) (st : SimState) (gear rpm : ℤ)
       (now : ℕ) (ev : TickEvents) (gid : String) (s : Schema) (m1 : ℤ),
       st.gauge.detected_game = some gid →
       List.lookup gid st.gauge.game_schemas = some s →
       m1 = (if s.fields.max_rpm.isSome then st.gauge.max_rpm
             else if rpm > st.gauge.max_rpm then rpm else st.gauge.max_rpm) →
       (m1 = 0 →
          (telemetryUpdate conf digits st gear rpm now ev).2.2 = some .zeroDiv) ∧
       (m1 ≠ 0 →
          (telemetryUpdate conf digits st gear rpm now ev).1.gauge.level =
            (if (rpm : ℚ) / (m1 : ℚ) < conf.led_redline_flash_above
             then max 0 (min 1 ((rpm : ℚ) / (m1 : ℚ)))
             else (rpm : ℚ) / (m1 : ℚ)))) := by
  constructor
  · intro conf g l
    refine ⟨by simp [set_gauge_level], ?_, ?_⟩
    · simp [set_gauge_level]
    · simp only [set_gauge_level]
      exact max_le (by norm_num) (min_le_left _ _)
  · intro conf digits st gear rpm now ev gid s m1 hd hs hm1
    obtain ⟨_, _, _, _, hzero, hnzero⟩ := telemetryUpdate_spec hd hs m1 hm1
    exact ⟨fun h0 => (hzero h0).1, fun hn => (hnzero hn).1⟩

unseal Rat.mul Rat.inv Rat.add Rat.sub in
/-- Witness for the amended claim C2: set_gauge_level at level 3/2
clamps to 1, and the locked max-field gauge at rpm 1500 stores the
clamped ratio 1/2. -/
theorem c2_level_clamping_amended_witness :
    (((set_gauge_level demoConf (mkGauge []) (3 / 2)).1).level = max 0 (min 1 (3 / 2)) ∧
     0 ≤ ((set_gauge_level demoConf (mkGauge []) (3 / 2)).1).level ∧
     ((set_gauge_level demoConf (mkGauge []) (3 / 2)).1).level ≤ 1) ∧
    (((3000 : ℤ) = 0 →
        (telemetryUpdate demoConf demoDigits stB 3 1500 0 emptyEvents).2.2 =
          some .zeroDiv) ∧
     ((3000 : ℤ) ≠ 0 →
        (telemetryUpdate demoConf demoDigits stB 3 1500 0 emptyEvents).1.gauge.level =
          (if ((1500 : ℤ) : ℚ) / ((3000 : ℤ) : ℚ) < demoConf.led_redline_flash_above
           then max 0 (min 1 (((1500 : ℤ) : ℚ) / ((3000 : ℤ) : ℚ)))
           else ((1500 : ℤ) : ℚ) / ((3000 : ℤ) : ℚ)))) :=
  ⟨c2_level_clamping_amended.1 demoConf (mkGauge []) (3 / 2),
   c2_level_clamping_amended.2 demoConf demoDigits stB 3 1500 0 emptyEvents "b"
      schemaWithMax 3000 rfl rfl (by decide)⟩

unseal Rat.mul Rat.inv Rat.add Rat.sub in
/-- Claim C3 counterexample: a schema declaring a max_rpm field whose
decoded value is 0 is locked, yet the decoded max_rpm is not applied:
the gauge max_rpm stays 3000 because the code guards the assignment
with Python truthiness, under which 0 is falsy. -/
theorem c3_counterexample :
    (detect_game (mkGauge [("b", schemaWithMax)]) [3, 50, 0]).2 = some "b" ∧
    schemaWithMax.fields.max_rpm.isSome = true ∧
    unpackSchema schemaWithMax [3, 50, 0] = .ok (3, 5000, some 0) ∧
    (detect_game (mkGauge [("b", schemaWithMax)]) [3, 50, 0]).1.max_rpm = 3000 ∧
    (3000 : ℤ) ≠ 0 := by
  refine ⟨by decide, by decide, by decide, by decide, by decide⟩

/-- Claim C3 amended: during detection a decodable candidate schema is
accepted exactly when its decoded gear lies in the closed set -1..10
and its decoded rpm lies in the open interval (0, 20000); the first
accepted schema in registry order is locked into detected_game
together with its gear map; and the decoded max_rpm of the locked
schema is applied to the gauge iff it is truthy, so a decoded max_rpm
of 0 (or an undeclared field) leaves max_rpm unchanged.  When no
registry schema accepts the packet, detection returns none and the
gauge is unchanged. -/
theorem c3_first_accept_lock_amended :
    (∀ (g : Gauge) (data : List ℕ) (pre : List (String × Schema)) (gameId : String)
       (s : Schema) (rest : List (String × Schema)) (gear rpm : ℤ) (m : Option ℤ),
       truthyStr g.detected_game = false →
       g.game_schemas = pre ++ (gameId, s) :: rest →
       (∀ p ∈ pre, acceptsB p.2 data = false) →
       unpackSchema s data = .ok (gear, rpm, m) →
       ((acceptsB s data = true ↔
          (gear ∈ ([-1, 0, 1, 2, 3, 4, 5, 6, 7, 8, 9, 10] : List ℤ) ∧
           0 < rpm ∧ rpm < 20000)) ∧
        (plausibleB gear rpm = true →
          (detect_game g data).2 = some gameId ∧
          (detect_game g data).1.detected_game = some gameId ∧
          (detect_game g data).1.gear_map = s.fields.gearMap ∧
          (∀ v : ℤ, m = some v → v ≠ 0 → (detect_game g data).1.max_rpm = v) ∧
          ((m = none ∨ m = some 0) →
            (detect_game g data).1.max_rpm = g.max_rpm)))) ∧
    (∀ (g : Gauge) (data : List ℕ),
       truthyStr g.detected_game = false →
       (∀ p ∈ g.game_schemas, acceptsB p.2 data = false) →
       (detect_game g data).2 = none ∧ (detect_game g data).1 = g) := by
  constructor
  · intro g data pre gameId s rest gear rpm m hunlock hreg hpre hdec
    constructor
    · simp [acceptsB, hdec, plausibleB, and_assoc]
    · intro hp
      have hloop :
          detectLoopT g data (pre ++ (gameId, s) :: rest) =
            ({ g with
                detected_game := some gameId,
                gear_map := s.fields.gearMap,
                max_rpm := if truthyInt m then m.getD g.max_rpm else g.max_rpm },
             some gameId, 1 + pre.length) := by
        rw [detectLoopT_pre hpre, detectLoopT_accept hdec hp]
      have hd : detect_game g data =
          ({ g with
              detected_game := some gameId,
              gear_map := s.fields.gearMap,
              max_rpm := if truthyInt m then m.getD g.max_rpm else g.max_rpm },
           some gameId) := by
        simp [detect_game, detect_gameT, hunlock, hreg, hloop]
      rw [hd]
      refine ⟨rfl, rfl, rfl, ?_, ?_⟩
      · intro v hv hvne
        subst hv
        simp [truthyInt, hvne]
      · intro hm0
        rcases hm0 with hm0 | hm0 <;> subst hm0 <;> simp [truthyInt]
  · intro g data hunlock hall
    have hloop := @detectLoopT_none g data g.game_schemas hall
    constructor
    · simp [detect_game, detect_gameT, hunlock, hloop]
    · simp [detect_game, detect_gameT, hunlock, hloop]

unseal Rat.mul Rat.inv Rat.add Rat.sub in
/-- Witness for the amended claim C3: the first schema rejects the
short packet, the second accepts it with no max_rpm field, so the
gauge locks onto the second schema with max_rpm unchanged; and on a
registry where nothing accepts, detection returns none. -/
theorem c3_first_accept_lock_amended_witness :
    ((acceptsB schemaNoMax [3, 50] = true ↔
       ((3 : ℤ) ∈ ([-1, 0, 1, 2, 3, 4, 5, 6, 7, 8, 9, 10] : List ℤ) ∧
        (0 : ℤ) < 5000 ∧ (5000 : ℤ) < 20000)) ∧
     (plausibleB 3 5000 = true →
       (detect_game (mkGauge [("b", schemaWithMax), ("a", schemaNoMax)]) [3, 50]).2 =
         some "a" ∧
       (detect_game (mkGauge [("b", schemaWithMax), ("a", schemaNoMax)]) [3, 50]).1.detected_game =
         some "a" ∧
       (detect_game (mkGauge [("b", schemaWithMax), ("a", schemaNoMax)]) [3, 50]).1.gear_map =
         schemaNoMax.fields.gearMap ∧
       (∀ v : ℤ, (none : Option ℤ) = some v → v ≠ 0 →
          (detect_game (mkGauge [("b", schemaWithMax), ("a", schemaNoMax)]) [3, 50]).1.max_rpm = v) ∧
       (((none : Option ℤ) = none ∨ (none : Option ℤ) = some 0) →
          (detect_game (mkGauge [("b", schemaWithMax), ("a", schemaNoMax)]) [3, 50]).1.max_rpm =
            (mkGauge [("b", schemaWithMax), ("a", schemaNoMax)]).max_rpm))) ∧
    ((detect_game (mkGauge [("b", schemaWithMax)]) [3]).2 = none ∧
     (detect_game (mkGauge [("b", schemaWithMax)]) [3]).1 = mkGauge [("b", schemaWithMax)]) :=
  ⟨c3_first_accept_lock_amended.1 (mkGauge [("b", schemaWithMax), ("a", schemaNoMax)])
      [3, 50] [("b", schemaWithMax)] "a" schemaNoMax [] 3 5000 none
      (by decide) rfl
      (by
        intro p hp
        simp only [List.mem_singleton] at hp
        subst hp
        decide)
      (by decide),
   c3_first_accept_lock_amended.2 (mkGauge [("b", schemaWithMax)]) [3]
      (by decide)
      (by
        intro p hp
        simp only [mkGauge, List.mem_singleton] at hp
        subst hp
        decide)⟩

/-- Claim C9: detection is deterministic and idempotent.  A locked
gauge makes detect_game return the locked game on any packet with
zero schema decode trials; and on an unlocked gauge whose registry has
exactly one schema accepting the packet, detect_game returns that
schema, after which every further call on any packet returns the same
locked schema, again with zero decode trials. -/
theorem c9_detect_deterministic_idempotent :
    (∀ (g : Gauge) (data : List ℕ) (gameId : String),
       g.detected_game = some gameId → gameId.length ≠ 0 →
       detect_game g data = (g, some gameId) ∧ (detect_gameT g data).2.2 = 0) ∧
    (∀ (g : Gauge) (data data2 : List ℕ) (pre : List (String × Schema))
       (gameId : String) (s : Schema) (rest : List (String × Schema))
       (gear rpm : ℤ) (m : Option ℤ),
       truthyStr g.detected_game = false →
       gameId.length ≠ 0 →
       g.game_schemas = pre ++ (gameId, s) :: rest →
       (∀ p ∈ pre ++ rest, acceptsB p.2 data = false) →
       unpackSchema s data = .ok (gear, rpm, m) →
       plausibleB gear rpm = true →
       (detect_game g data).2 = some gameId ∧
       detect_game (detect_game g data).1 data2 =
         ((detect_game g data).1, some gameId) ∧
       (detect_gameT (detect_game g data).1 data2).2.2 = 0) := by
  have hlocked : ∀ (g : Gauge) (data : List ℕ) (gameId : String),
      g.detected_game = some gameId → gameId.length ≠ 0 →
      detect_game g data = (g, some gameId) ∧ (detect_gameT g data).2.2 = 0 := by
    intro g data gameId hdet hne
    have htr : truthyStr (some gameId) = true := by
      simp [truthyStr, hne]
    constructor
    · simp [detect_game, detect_gameT, hdet, htr]
    · simp [detect_gameT, hdet, htr]
  refine ⟨hlocked, ?_⟩
  intro g data data2 pre gameId s rest gear rpm m hunlock hne hreg hpre hdec hp
  have hloop :
      detectLoopT g data (pre ++ (gameId, s) :: rest) =
        ({ g with
            detected_game := some gameId,
            gear_map := s.fields.gearMap,
            max_rpm := if truthyInt m then m.getD g.max_rpm else g.max_rpm },
         some gameId, 1 + pre.length) := by
    rw [detectLoopT_pre (fun p hp2 => hpre p (by simp [hp2])),
      detectLoopT_accept hdec hp]
  have hd : detect_game g data =
      ({ g with
          detected_game := some gameId,
          gear_map := s.fields.gearMap,
          max_rpm := if truthyInt m then m.getD g.max_rpm else g.max_rpm },
       some gameId) := by
    simp [detect_game, detect_gameT, hunlock, hreg, hloop]
  have hdet2 : (detect_game g data).1.detected_game = some gameId := by
    rw [hd]
  obtain ⟨h1, h2⟩ := hlocked (detect_game g data).1 data2 gameId hdet2 hne
  exact ⟨by rw [hd], h1, h2⟩

unseal Rat.mul Rat.inv Rat.add Rat.sub in
/-- Witness for claim C9: the locked demo gauge short-circuits with
zero trials on an empty packet, and the fresh two-schema registry
where only the second schema accepts locks onto it; the second call on
the empty packet returns it again with zero trials. -/
theorem c9_detect_deterministic_idempotent_witness :
    (detect_game lockedGaugeA [] = (lockedGaugeA, some "a") ∧
     (detect_gameT lockedGaugeA []).2.2 = 0) ∧
    ((detect_game (mkGauge [("b", schemaWithMax), ("a", schemaNoMax)]) [3, 50]).2 =
       some "a" ∧
     detect_game (detect_game (mkGauge [("b", schemaWithMax), ("a", schemaNoMax)]) [3, 50]).1 [] =
       ((detect_game (mkGauge [("b", schemaWithMax), ("a", schemaNoMax)]) [3, 50]).1,
        some "a") ∧
     (detect_gameT (detect_game (mkGauge [("b", schemaWithMax), ("a", schemaNoMax)]) [3, 50]).1 []).2.2 = 0) :=
  ⟨c9_detect_deterministic_idempotent.1 lockedGaugeA [] "a" rfl (by decide),
   c9_detect_deterministic_idempotent.2 (mkGauge [("b", schemaWithMax), ("a", schemaNoMax)])
      [3, 50] [] [("b", schemaWithMax)] "a" schemaNoMax [] 3 5000 none
      (by decide) (by decide) rfl
      (by
        intro p hp
        simp only [List.append_nil, List.mem_singleton] at hp
        subst hp
        decide)
      (by decide) (by decide)⟩

/-- Claim C6: when the locked schema declares no max_rpm field, each
successful decode raises the gauge max_rpm to the maximum of its
current value and the observed rpm, so over a session it equals the
running maximum of the observed rpms (seeded by the prior value),
never decreases, and bounds every observed rpm; when the schema does
declare max_rpm, the update leaves max_rpm unchanged. -/
theorem c6_adaptive_max_rpm :
    (∀ (conf : Conf) (digits : List String) (st : SimState) (gear rpm : ℤ)
       (now : ℕ) (ev : TickEvents) (gid : String) (s : Schema),
       st.gauge.detected_game = some gid →
       List.lookup gid st.gauge.game_schemas = some s →
       ((s.fields.max_rpm.isSome = true →
          (telemetryUpdate conf digits st gear rpm now ev).1.gauge.max_rpm =
            st.gauge.max_rpm) ∧
        (s.fields.max_rpm = none →
          (telemetryUpdate conf digits st gear rpm now ev).1.gauge.max_rpm =
            max st.gauge.max_rpm rpm) ∧
        st.gauge.max_rpm ≤
          (telemetryUpdate conf digits st gear rpm now ev).1.gauge.max_rpm)) ∧
    (∀ (conf : Conf) (digits : List String) (st : SimState)
       (packets : List (ℤ × ℤ)) (gid : String) (s : Schema),
       st.gauge.detected_game = some gid →
       List.lookup gid st.gauge.game_schemas = some s →
       s.fields.max_rpm = none →
       (telemetryRun conf digits st packets).1.gauge.max_rpm =
         List.foldl max st.gauge.max_rpm (packets.map Prod.snd)) ∧
    (∀ (m0 : ℤ) (rpms : List ℤ),
       m0 ≤ List.foldl max m0 rpms ∧
       ∀ r ∈ rpms, r ≤ List.foldl max m0 rpms) := by
  refine ⟨?_, ?_, fun m0 rpms => foldl_max_bounds rpms m0⟩
  · intro conf digits st gear rpm now ev gid s hd hs
    obtain ⟨hmax, _, _, _, _, _⟩ :=
      @telemetryUpdate_spec conf digits st gear rpm now ev gid s hd hs
        (if s.fields.max_rpm.isSome then st.gauge.max_rpm
         else if rpm > st.gauge.max_rpm then rpm else st.gauge.max_rpm) rfl
    refine ⟨fun hsome => by rw [hmax]; simp [hsome], ?_, ?_⟩
    · intro hnone
      rw [hmax]
      simp only [hnone, Option.isSome_none, Bool.false_eq_true, if_false]
      exact ifgt_eq_max st.gauge.max_rpm rpm
    · rw [hmax]
      by_cases hsome : s.fields.max_rpm.isSome = true
      · simp [hsome]
      · simp only [hsome, if_false]
        by_cases hgt : rpm > st.gauge.max_rpm
        · simp [hgt]
          omega
        · simp [hgt]
  · intro conf digits st packets gid s hd hs hnone
    exact telemetryRun_max conf digits packets gid s hnone st hd hs

unseal Rat.mul Rat.inv Rat.add Rat.sub in
/-- Witness for claim C6: one update on the locked max-field gauge
leaves max_rpm alone, and a run of three packets on the no-max-field
gauge raises max_rpm to the running maximum 4200 = max 3000 of the
observed rpms. -/
theorem c6_adaptive_max_rpm_witness :
    ((schemaWithMax.fields.max_rpm.isSome = true →
       (telemetryUpdate demoConf demoDigits stB 3 9000 0 emptyEvents).1.gauge.max_rpm =
         stB.gauge.max_rpm) ∧
     (schemaWithMax.fields.max_rpm = none →
       (telemetryUpdate demoConf demoDigits stB 3 9000 0 emptyEvents).1.gauge.max_rpm =
         max stB.gauge.max_rpm 9000) ∧
     stB.gauge.max_rpm ≤
       (telemetryUpdate demoConf demoDigits stB 3 9000 0 emptyEvents).1.gauge.max_rpm) ∧
    ((telemetryRun demoConf demoDigits stA [(3, 3500), (4, 4200), (3, 1000)]).1.gauge.max_rpm =
       List.foldl max stA.gauge.max_rpm ([(3, 3500), (4, 4200), (3, 1000)].map Prod.snd)) ∧
    ((3000 : ℤ) ≤ List.foldl max 3000 [3500, 4200, 1000] ∧
     ∀ r ∈ [(3500 : ℤ), 4200, 1000], r ≤ List.foldl max 3000 [3500, 4200, 1000]) :=
  ⟨c6_adaptive_max_rpm.1 demoConf demoDigits stB 3 9000 0 emptyEvents "b"
      schemaWithMax rfl rfl,
   c6_adaptive_max_rpm.2.1 demoConf demoDigits stA [(3, 3500), (4, 4200), (3, 1000)]
      "a" schemaNoMax rfl rfl rfl,
   c6_adaptive_max_rpm.2.2 3000 [3500, 4200, 1000]⟩

/-- Claim C7 counterexample: at exactly 5 seconds of silence (at least
the timeout) the tick does not transition to idle mode, because the
code requires strictly more than the timeout. -/
theorem c7_counterexample :
    5 - stFresh.lastDataTime ≥ 5 ∧
    stFresh.isIdleMode = false ∧
    (tickBody demoConf demoDigits stFresh none 5).2.1.enteredIdle = false ∧
    (tickBody demoConf demoDigits stFresh none 5).1.isIdleMode = false := by
  refine ⟨by decide, rfl, by decide, by decide⟩

/-- Claim C7 amended: a silent tick observed strictly more than the
5-second idle timeout after the last data, while not yet idle, enters
idle mode exactly then: the idle flags are set, the detected game is
cleared, max_rpm is reset to 3000, the display is cleared, and the
idle animation is started or the ring blanked per configuration.
While already idle, or before the strict timeout, a silent tick
changes nothing; over any run of silent ticks the idle entry fires at
most once - exactly once when some tick time strictly exceeds the
timeout since the last data. -/
theorem c7_idle_entry_once_amended :
    (∀ (conf : Conf) (digits : List String) (st : SimState) (now : ℕ),
       st.isIdleMode = false → 5 < now - st.lastDataTime →
       tickBody conf digits st none now =
         ({ st with
             isIdleMode := true,
             gauge := { st.gauge with
                         in_idle_mode := true,
                         detected_game := none,
                         max_rpm := 3000 } },
          { emptyEvents with
             enteredIdle := true,
             displayCleared := true,
             idleAnimStarted := conf.allow_idle_animations,
             ringBlanked := !conf.allow_idle_animations },
          none)) ∧
    (∀ (conf : Conf) (digits : List String) (st : SimState) (now : ℕ),
       st.isIdleMode = true →
       tickBody conf digits st none now = (st, emptyEvents, none)) ∧
    (∀ (conf : Conf) (digits : List String) (st : SimState) (now : ℕ),
       st.isIdleMode = false → ¬ 5 < now - st.lastDataTime →
       tickBody conf digits st none now = (st, emptyEvents, none)) ∧
    (∀ (conf : Conf) (digits : List String) (st : SimState) (ts : List ℕ),
       silentRun conf digits st ts =
         (if st.isIdleMode then 0
          else if ts.any (fun t => decide (5 < t - st.lastDataTime)) then 1 else 0)) := by
  have hentry : ∀ (conf : Conf) (digits : List String) (st : SimState) (now : ℕ),
      st.isIdleMode = false → 5 < now - st.lastDataTime →
      tickBody conf digits st none now =
        ({ st with
            isIdleMode := true,
            gauge := { st.gauge with
                        in_idle_mode := true,
                        detected_game := none,
                        max_rpm := 3000 } },
         { emptyEvents with
            enteredIdle := true,
            displayCleared := true,
            idleAnimStarted := conf.allow_idle_animations,
            ringBlanked := !conf.allow_idle_animations },
         none) := by
    intro conf digits st now hidle ht
    rw [tickBody_none, idleCheck_entry conf st now emptyEvents rfl hidle ht]
  have hskipIdle : ∀ (conf : Conf) (digits : List String) (st : SimState) (now : ℕ),
      st.isIdleMode = true →
      tickBody conf digits st none now = (st, emptyEvents, none) := by
    intro conf digits st now hidle
    rw [tickBody_none, idleCheck_skip_idle conf st now emptyEvents hidle]
  have hskipTime : ∀ (conf : Conf) (digits : List String) (st : SimState) (now : ℕ),
      st.isIdleMode = false → ¬ 5 < now - st.lastDataTime →
      tickBody conf digits st none now = (st, emptyEvents, none) := by
    intro conf digits st now _ ht
    rw [tickBody_none, idleCheck_skip_time conf st now emptyEvents ht]
  refine ⟨hentry, hskipIdle, hskipTime, ?_⟩
  intro conf digits st ts
  induction ts generalizing st with
  | nil =>
      cases h : st.isIdleMode <;> simp [silentRun, h]
  | cons t ts ih =>
      by_cases hidle : st.isIdleMode = true
      · have h0 : silentRun conf digits st (t :: ts) =
            (if (tickBody conf digits st none t).2.1.enteredIdle then 1 else 0) +
              silentRun conf digits (tickBody conf digits st none t).1 ts := rfl
        rw [h0, hskipIdle conf digits st t hidle]
        have := ih st
        simp only [hidle, if_true] at this ⊢
        simpa [emptyEvents] using this
      · have hidle' : st.isIdleMode = false := by
          simpa using hidle
        by_cases ht : 5 < t - st.lastDataTime
        · have h0 : silentRun conf digits st (t :: ts) =
              (if (tickBody conf digits st none t).2.1.enteredIdle then 1 else 0) +
                silentRun conf digits (tickBody conf digits st none t).1 ts := rfl
          rw [h0, hentry conf digits st t hidle' ht]
          have hrest := ih ({ st with
              isIdleMode := true,
              gauge := { st.gauge with
                          in_idle_mode := true,
                          detected_game := none,
                          max_rpm := 3000 } })
          simp only [if_true] at hrest
          simp [hidle', ht, hrest]
        · have h0 : silentRun conf digits st (t :: ts) =
              (if (tickBody conf digits st none t).2.1.enteredIdle then 1 else 0) +
                silentRun conf digits (tickBody conf digits st none t).1 ts := rfl
          rw [h0, hskipTime conf digits st t hidle' ht]
          have hrest := ih st
          simp only [hidle', if_false] at hrest
          simp [hidle', ht, emptyEvents, hrest]

unseal Rat.mul Rat.inv Rat.add Rat.sub in
/-- Witness for the amended claim C7: the fresh state enters idle at
time 6, stays put at time 3, an idle state ignores a silent tick, and
a silent run at times 3, 6, 9 enters idle exactly once. -/
theorem c7_idle_entry_once_amended_witness :
    tickBody demoConf demoDigits stFresh none 6 =
      ({ stFresh with
          isIdleMode := true,
          gauge := { stFresh.gauge with
                      in_idle_mode := true,
                      detected_game := none,
                      max_rpm := 3000 } },
       { emptyEvents with
          enteredIdle := true,
          displayCleared := true,
          idleAnimStarted := demoConf.allow_idle_animations,
          ringBlanked := !demoConf.allow_idle_animations },
       none) ∧
    tickBody demoConf demoDigits ⟨0, true, none, lockedGaugeA⟩ none 100 =
      (⟨0, true, none, lockedGaugeA⟩, emptyEvents, none) ∧
    tickBody demoConf demoDigits stFresh none 3 = (stFresh, emptyEvents, none) ∧
    silentRun demoConf demoDigits stFresh [3, 6, 9] =
      (if stFresh.isIdleMode then 0
       else if [3, 6, 9].any (fun t => decide (5 < t - stFresh.lastDataTime)) then 1
       else 0) :=
  ⟨c7_idle_entry_once_amended.1 demoConf demoDigits stFresh 6 rfl (by decide),
   c7_idle_entry_once_amended.2.1 demoConf demoDigits ⟨0, true, none, lockedGaugeA⟩ 100 rfl,
   c7_idle_entry_once_amended.2.2.1 demoConf demoDigits stFresh 3 rfl (by decide),
   c7_idle_entry_once_amended.2.2.2 demoConf demoDigits stFresh [3, 6, 9]⟩

theorem telemetryRun_renders (conf : Conf) (digits : List String)
    (packets : List (ℤ × ℤ)) (gid : String) (s : Schema) :
    ∀ st : SimState, st.gauge.detected_game = some gid →
      List.lookup gid st.gauge.game_schemas = some s →
      0 < st.gauge.max_rpm →
      (∀ p ∈ packets, ∃ glyph,
         List.lookup (toString p.1) st.gauge.gear_map = some glyph ∧ glyph ∈ digits) →
      (∀ a : ℤ, st.lastGear = some a →
         a :: (telemetryRun conf digits st packets).2 =
           List.destutter' (· ≠ ·) a (packets.map Prod.fst)) ∧
      (st.lastGear = none →
         (telemetryRun conf digits st packets).2 =
           List.destutter (· ≠ ·) (packets.map Prod.fst)) := by
  induction packets with
  | nil =>
      intro st _ _ _ _
      constructor
      · intro a _
        simp [telemetryRun, List.destutter'_nil]
      · intro _
        simp [telemetryRun, List.destutter_nil]
  | cons p ps ih =>
      intro st hd hs hm hmap
      have hm1 : 0 < (if s.fields.max_rpm.isSome then st.gauge.max_rpm
          else if p.2 > st.gauge.max_rpm then p.2 else st.gauge.max_rpm) := by
        split_ifs with h1 h2
        · exact hm
        · omega
        · exact hm
      obtain ⟨hmax, hdet, hsch, hgm, _, hnz⟩ :=
        @telemetryUpdate_spec conf digits st p.1 p.2 0 emptyEvents gid s hd hs
          (if s.fields.max_rpm.isSome then st.gauge.max_rpm
           else if p.2 > st.gauge.max_rpm then p.2 else st.gauge.max_rpm) rfl
      obtain ⟨_, hsame, hchange⟩ := hnz hm1.ne'
      have hd' :
          (telemetryUpdate conf digits st p.1 p.2 0 emptyEvents).1.gauge.detected_game =
            some gid := by rw [hdet, hd]
      have hs' :
          List.lookup gid
            (telemetryUpdate conf digits st p.1 p.2 0 emptyEvents).1.gauge.game_schemas =
            some s := by rw [hsch]; exact hs
      have hm' :
          0 < (telemetryUpdate conf digits st p.1 p.2 0 emptyEvents).1.gauge.max_rpm := by
        rw [hmax]; exact hm1
      have hmap' : ∀ q ∈ ps, ∃ glyph,
          List.lookup (toString q.1)
            (telemetryUpdate conf digits st p.1 p.2 0 emptyEvents).1.gauge.gear_map =
            some glyph ∧ glyph ∈ digits := by
        intro q hq
        rw [hgm]
        exact hmap q (List.mem_cons_of_mem _ hq)
      have hstep2 :
          (telemetryRun conf digits st (p :: ps)).2 =
            (match (telemetryUpdate conf digits st p.1 p.2 0 emptyEvents).2.1.renderedGear with
             | some g => [g]
             | none => []) ++
              (telemetryRun conf digits
                (telemetryUpdate conf digits st p.1 p.2 0 emptyEvents).1 ps).2 := rfl
      have hih := ih (telemetryUpdate conf digits st p.1 p.2 0 emptyEvents).1 hd' hs' hm' hmap'
      obtain ⟨glyph, hglk, hgdig⟩ := hmap p (List.mem_cons_self p ps)
      constructor
      · intro a hlast
        by_cases hap : a = p.1
        · subst hap
          obtain ⟨_, hlast', hrg⟩ := hsame hlast
          have hrgn :
              (telemetryUpdate conf digits st p.1 p.2 0 emptyEvents).2.1.renderedGear =
                none := by simpa [emptyEvents] using hrg
          rw [hstep2, hrgn, List.map_cons, List.destutter'_cons,
            if_neg (by simp)]
          simpa using hih.1 p.1 hlast'
        · have hne : st.lastGear ≠ some p.1 := by
            rw [hlast]
            exact fun hcc => hap (Option.some.inj hcc)
          obtain ⟨_, hlast', hrg⟩ := hchange hne glyph hglk hgdig
          rw [hstep2, hrg, List.map_cons, List.destutter'_cons, if_pos hap]
          have := hih.1 p.1 hlast'
          simp only [List.cons_append, List.nil_append]
          rw [this]
      · intro hlast
        have hne : st.lastGear ≠ some p.1 := by
          rw [hlast]
          exact fun hcc => Option.noConfusion hcc
        obtain ⟨_, hlast', hrg⟩ := hchange hne glyph hglk hgdig
        rw [hstep2, hrg, List.map_cons, List.destutter_cons']
        simpa using hih.1 p.1 hlast'

/-- Claim C8: over a run of successfully decoded packets on a locked
gauge whose gear glyphs are all renderable, the gear glyph render
fires exactly once per distinct change of the decoded gear value: the
sequence of rendered gears is the packet gear sequence with adjacent
duplicates removed, and never renders the same gear twice in a row. -/
theorem c8_glyph_render_once_per_change (conf : Conf) (digits : List String)
    (st : SimState) (packets : List (ℤ × ℤ)) (gid : String) (s : Schema)
    (hd : st.gauge.detected_game = some gid)
    (hs : List.lookup gid st.gauge.game_schemas = some s)
    (hm : 0 < st.gauge.max_rpm)
    (hlast : st.lastGear = none)
    (hmap : ∀ p ∈ packets, ∃ glyph,
       List.lookup (toString p.1) st.gauge.gear_map = some glyph ∧ glyph ∈ digits) :
    (telemetryRun conf digits st packets).2 =
      List.destutter (· ≠ ·) (packets.map Prod.fst) ∧
    List.Chain' (· ≠ ·) (telemetryRun conf digits st packets).2 := by
  have h := (telemetryRun_renders conf digits packets gid s st hd hs hm hmap).2 hlast
  refine ⟨h, ?_⟩
  rw [h]
  exact List.destutter_is_chain' (· ≠ ·) (packets.map Prod.fst)

unseal Rat.mul Rat.inv Rat.add Rat.sub in
/-- Witness for claim C8: the packet gear sequence 3, 3, 4, 4, 3
renders exactly 3, 4, 3. -/
theorem c8_glyph_render_once_per_change_witness :
    (telemetryRun demoConf demoDigits stA
        [(3, 1000), (3, 1200), (4, 1500), (4, 900), (3, 800)]).2 =
      List.destutter (· ≠ ·)
        ([(3, 1000), (3, 1200), (4, 1500), (4, 900), ((3 : ℤ), (800 : ℤ))].map Prod.fst) ∧
    List.Chain' (· ≠ ·)
      (telemetryRun demoConf demoDigits stA
        [(3, 1000), (3, 1200), (4, 1500), (4, 900), (3, 800)]).2 :=
  c8_glyph_render_once_per_change demoConf demoDigits stA
    [(3, 1000), (3, 1200), (4, 1500), (4, 900), (3, 800)] "a" schemaNoMax
    rfl rfl (by decide) rfl
    (by
      intro p hp
      simp only [List.mem_cons, List.not_mem_nil, or_false] at hp
      rcases hp with h | h | h | h | h <;> subst h <;>
        exact ⟨_, rfl, by decide⟩)

end ShiftLight
